import Mathlib

/-!
# Verification of the product-designer core

Shallow embedding, in Lean 4, of the core algorithms of the product
designer (print-area geometry, multi-view design sessions, undo/redo
history, high-resolution export and view pricing), together with proofs
of the behavioural properties stated in the specification.

Pixel and inch quantities are modelled as exact rationals (`ℚ`); the
source's floating-point arithmetic performs the same field operations.
`Math.sqrt` (used only by the admin print-area editor) is modelled as an
explicit function parameter characterised by hypotheses at the points
where it is applied.  Serialized design objects are modelled by an
arbitrary type with decidable equality (serialization itself is
injective renaming, so byte-for-byte equality of serialized snapshots is
equality of the models).
-/

namespace Designer

/-- JavaScript `x || d` on numbers (`0` is falsy; `NaN` does not arise in
the modelled inputs). -/
def jsOr (x d : ℚ) : ℚ := if x = 0 then d else x

/-! ## Geometry resolver: `CanvasManager.setupPrintArea` -/

/-- A stored print-area specification (percent anchors + inch
dimensions), as passed to `CanvasManager.setupPrintArea`. -/
structure PrintAreaData where
  widthInches : ℚ
  heightInches : ℚ
  widthPercent : ℚ
  heightPercent : ℚ
  leftPercent : ℚ
  topPercent : ℚ
  deriving DecidableEq, Repr

/-- The resolved print-area rectangle stored in
`CanvasManager.printAreaBounds`, plus the derived `printAreaDPI`. -/
structure PrintAreaBounds where
  left : ℚ
  top : ℚ
  width : ℚ
  height : ℚ
  widthInches : ℚ
  heightInches : ℚ
  dpi : ℚ
  deriving DecidableEq, Repr

/-- `CanvasManager.setupPrintArea` (Designer.js 2161-2215): resolves a
print-area specification to absolute pixel bounds, given the product
image's center `(imgCenterX, imgCenterY)` and its rendered (scaled)
size. -/
def setupPrintArea (imgCenterX imgCenterY scaledProductWidth scaledProductHeight : ℚ)
    (d : PrintAreaData) : PrintAreaBounds :=
  let widthInches := jsOr d.widthInches 8
  let heightInches := jsOr d.heightInches 10
  let aspectRatio := widthInches / heightInches
  let maxWidth := scaledProductWidth * (d.widthPercent / 100)
  let maxHeight := scaledProductHeight * (d.heightPercent / 100)
  let printWidth := if maxWidth / maxHeight > aspectRatio then maxHeight * aspectRatio else maxWidth
  let printHeight := if maxWidth / maxHeight > aspectRatio then maxHeight else maxWidth / aspectRatio
  let offsetX := scaledProductWidth * (d.leftPercent / 100)
  let offsetY := scaledProductHeight * (d.topPercent / 100)
  { left := imgCenterX + offsetX - printWidth / 2
    top := imgCenterY + offsetY - printHeight / 2
    width := printWidth
    height := printHeight
    widthInches := widthInches
    heightInches := heightInches
    dpi := printWidth / widthInches }

/-- The letterbox fit shared by `setupPrintArea`,
`setupPrintAreaFullCanvas` and `PrintAreaEditor.addPrintAreaRect`:
the largest `r`-proportioned rectangle inside a `maxW × maxH` box. -/
theorem letterbox_fit (maxW maxH r : ℚ)
    (hmaxW : 0 < maxW) (hmaxH : 0 < maxH) (hr : 0 < r) :
    let w := if maxW / maxH > r then maxH * r else maxW
    let h := if maxW / maxH > r then maxH else maxW / r
    w / h = r ∧ w ≤ maxW ∧ h ≤ maxH ∧ (w = maxW ∨ h = maxH) := by
  intro w h
  by_cases hcase : maxW / maxH > r
  · have hw : w = maxH * r := if_pos hcase
    have hh : h = maxH := if_pos hcase
    have hlt : r * maxH < maxW := (lt_div_iff₀ hmaxH).mp hcase
    refine ⟨?_, ?_, le_of_eq hh, Or.inr hh⟩
    · rw [hw, hh, mul_comm, mul_div_assoc, div_self (ne_of_gt hmaxH), mul_one]
    · rw [hw]; linarith [mul_comm maxH r]
  · have hw : w = maxW := if_neg hcase
    have hh : h = maxW / r := if_neg hcase
    have hle : maxW / maxH ≤ r := le_of_not_lt hcase
    have hle' : maxW ≤ r * maxH := (div_le_iff₀ hmaxH).mp hle
    refine ⟨?_, le_of_eq hw, ?_, Or.inl hw⟩
    · rw [hw, hh]
      field_simp
    · rw [hh, div_le_iff₀ hr]; linarith [mul_comm maxH r]

/-! ## View pricing: `Designer.calculateViewsPricing` /
`ProductLoader.calculatePrice` -/

/-- A product view (print location) as read by the pricing loop. -/
structure View where
  id : String
  alwaysChargeExtra : Bool
  extraPrice : ℚ
  deriving DecidableEq, Repr

/-- One iteration of the view-surcharge loop shared by
`Designer.calculateViewsPricing` and `ProductLoader.calculatePrice`:
the accumulator is `(total, additionalCount, isFirstView)`. -/
def viewsPricingStep (views : List View) (additionalViewPrice : ℚ)
    (acc : ℚ × ℕ × Bool) (stageId : String) : ℚ × ℕ × Bool :=
  match views.find? (fun v => v.id = stageId) with
  | none => acc
  | some view =>
      if view.alwaysChargeExtra then (acc.1 + view.extraPrice, acc.2.1, acc.2.2)
      else if acc.2.2 then (acc.1, acc.2.1, false)
      else (acc.1 + additionalViewPrice, acc.2.1 + 1, false)

/-- `Designer.calculateViewsPricing` (the same loop appears in
`ProductLoader.calculatePrice`): iterates the designed view ids in
order, returning `(total, additionalCount)`.  The designed-view list is
taken as input (`StageManager.getDesignedStages`, its producer, is not
present in the sources; per the spec it yields the designed view ids in
natural order of appearance). -/
def calculateViewsPricing (views : List View) (additionalViewPrice : ℚ)
    (designedViews : List String) : ℚ × ℕ :=
  let r := designedViews.foldl (viewsPricingStep views additionalViewPrice) (0, 0, true)
  (r.1, r.2.1)

/-- The designed view ids resolved against the product's view list,
in order; ids not found contribute nothing. -/
def knownViews (views : List View) (ids : List String) : List View :=
  ids.filterMap (fun stageId => views.find? (fun v => v.id = stageId))

/-- Spec-side quantity: sum of `extraPrice` over designed views with
`alwaysChargeExtra` set. -/
def alwaysExtraTotal (views : List View) (ids : List String) : ℚ :=
  (((knownViews views ids).filter (fun v => v.alwaysChargeExtra)).map
    (fun v => v.extraPrice)).sum

/-- Spec-side quantity: number of designed views with
`alwaysChargeExtra` unset. -/
def regularViewCount (views : List View) (ids : List String) : ℕ :=
  ((knownViews views ids).filter (fun v => !v.alwaysChargeExtra)).length

/-! ## High-resolution export: `CanvasManager.addImage`,
`renderObjectHighRes`, `exportForPrint`, `Designer.downloadPrint` -/

/-- A fabric object on the canvas, restricted to the fields read by
`addImage` and the export pipeline.  `originalSrc` models
`_originalSrc` (`none` = property absent). -/
structure FabObj where
  type : String
  originalSrc : Option String
  originalWidth : ℚ
  originalHeight : ℚ
  width : ℚ
  height : ℚ
  scaleX : ℚ
  scaleY : ℚ
  left : ℚ
  top : ℚ
  angle : ℚ
  opacity : ℚ
  fontSize : ℚ
  text : String
  deriving DecidableEq, Repr

/-- One drawing operation issued on the high-resolution output canvas:
what is drawn, at what size, translated/rotated to where. -/
inductive DrawCmd where
  | image (src : String) (width height translateX translateY angle opacity : ℚ)
  | text (content : String) (fontSize translateX translateY angle opacity : ℚ)
  | shape (width height translateX translateY angle opacity : ℚ)
  deriving DecidableEq, Repr

/-- `CanvasManager.renderObjectHighRes`, successful path: the drawing
command issued for one object at the given resolution multiplier.
Image objects with a recorded `_originalSrc` are drawn from that
source at `displayedSize * multiplier`; objects of image type without
one fall through to the shape branch, as in the source. -/
def renderObjectHighRes (obj : FabObj) (multiplier : ℚ) : DrawCmd :=
  let left := obj.left * multiplier
  let top := obj.top * multiplier
  let angle := jsOr obj.angle 0
  let opacity := jsOr obj.opacity 1
  match obj.originalSrc, decide (obj.type = "image") with
  | some src, true =>
      DrawCmd.image src (obj.width * obj.scaleX * multiplier)
        (obj.height * obj.scaleY * multiplier) left top angle opacity
  | _, _ =>
      if obj.type = "i-text" ∨ obj.type = "text" ∨ obj.type = "textbox" then
        DrawCmd.text obj.text (jsOr obj.fontSize 24 * multiplier * jsOr obj.scaleX 1)
          left top angle opacity
      else
        DrawCmd.shape (jsOr obj.width 100 * jsOr obj.scaleX 1 * multiplier)
          (jsOr obj.height 100 * jsOr obj.scaleY 1 * multiplier) left top angle opacity

/-- `CanvasManager.addImage`: builds the canvas object for an uploaded
raster asset, recording `_originalSrc` / `_originalWidth` /
`_originalHeight` BEFORE any display downscaling, then scaling the
display copy down if it exceeds 80% of the print area (or canvas), and
centering it in the print area. -/
def addImage (url : String) (naturalWidth naturalHeight : ℚ)
    (printAreaBounds : Option PrintAreaBounds) (canvasWidth canvasHeight : ℚ) : FabObj :=
  let maxWidth := (match printAreaBounds with
    | some bounds => bounds.width
    | none => canvasWidth) * (8 / 10)
  let maxHeight := (match printAreaBounds with
    | some bounds => bounds.height
    | none => canvasHeight) * (8 / 10)
  let scale := if naturalWidth > maxWidth ∨ naturalHeight > maxHeight then
      min (maxWidth / naturalWidth) (maxHeight / naturalHeight) else 1
  let center := match printAreaBounds with
    | some bounds => (bounds.left + bounds.width / 2, bounds.top + bounds.height / 2)
    | none => (canvasWidth / 2, canvasHeight / 2)
  { type := "image", originalSrc := some url, originalWidth := naturalWidth,
    originalHeight := naturalHeight, width := naturalWidth, height := naturalHeight,
    scaleX := scale, scaleY := scale, left := center.1, top := center.2,
    angle := 0, opacity := 1, fontSize := 0, text := "" }

/-- `CanvasManager.renderObjectHighRes` with asset failure: `fails`
says which sources fail to reload.  The per-object promise ALWAYS
resolves: on failure it logs (`true` in the second component) and
resolves without drawing. -/
def renderObjectHighResE (fails : String → Bool) (obj : FabObj) (multiplier : ℚ) :
    Option DrawCmd × Bool :=
  match obj.originalSrc, decide (obj.type = "image") with
  | some src, true =>
      if fails src then (none, true)
      else (some (renderObjectHighRes obj multiplier), false)
  | _, _ => (some (renderObjectHighRes obj multiplier), false)

/-- One step of `exportForPrint`'s sequential object loop: accumulate
the drawn commands and the number of failed objects. -/
def exportStep (fails : String → Bool) (multiplier : ℚ)
    (acc : List DrawCmd × ℕ) (obj : FabObj) : List DrawCmd × ℕ :=
  match renderObjectHighResE fails obj multiplier with
  | (some cmd, _) => (acc.1 ++ [cmd], acc.2)
  | (none, _) => (acc.1, acc.2 + 1)

/-- `CanvasManager.exportForPrint`: awaits each object in z-order and
returns the composed image.  `Except.error` would model a rejected
promise; the loop never produces one, so the export always resolves,
with the drawn commands and the failure count. -/
def exportForPrint (fails : String → Bool) (objects : List FabObj)
    (targetDPI screenDPI : ℚ) : Except String (List DrawCmd × ℕ) :=
  Except.ok (objects.foldl (exportStep fails (targetDPI / screenDPI)) ([], 0))

/-- `Designer.downloadPrint`: its `try/catch` alerts the user exactly
when the export promise rejects. -/
def downloadPrintAlerted (fails : String → Bool) (objects : List FabObj) : Bool :=
  match exportForPrint fails objects 300 72 with
  | Except.ok _ => false
  | Except.error _ => true

/-! ## Multi-view stages: `StageManager` -/

/-- The product-view payload attached to a stage (`viewData`): the
background asset for the view (possibly absent) — the print-area spec
plays no role in the claims below and is omitted. -/
structure ViewData where
  image : Option String
  deriving DecidableEq, Repr

/-- One stage entry in `StageManager.stages`.  `designState` is the
serialized decoration list of the view (`null` before the first save);
design objects are modelled by an arbitrary type `α` (serialization is
the identity on the model). -/
structure Stage (α : Type) where
  label : String
  viewData : ViewData
  designState : Option (List α)
  deriving DecidableEq, Repr

/-- The state read and written by `StageManager.switchStage`:
the stage map, the active stage id, the design objects currently on the
canvas (`CanvasManager.getDesignObjects()`), and the product elements
currently installed (product image + print-area markers). -/
structure SM (α : Type) where
  stages : List (String × Stage α)
  currentStage : Option String
  canvasDesign : List α
  canvasProduct : Option ViewData
  deriving DecidableEq, Repr

/-- Look up a stage by id (`this.stages.get(id)`). -/
def SM.getStage {α : Type} (sm : SM α) (stageId : String) : Option (Stage α) :=
  (sm.stages.find? (fun p => p.1 = stageId)).map Prod.snd

/-- `StageManager.saveCurrentStageDesign`: serializes the design
objects currently on the canvas into the current stage's
`designState`. -/
def saveCurrentStageDesign {α : Type} (sm : SM α) : SM α :=
  match sm.currentStage with
  | none => sm
  | some cur =>
      match sm.stages.find? (fun p => p.1 = cur) with
      | none => sm
      | some _ =>
          { sm with stages := sm.stages.map (fun p =>
              if p.1 = cur then (p.1, { p.2 with designState := some sm.canvasDesign })
              else p) }

/-- `StageManager.loadStageDesign`: enlivens the stage's stored design
objects and ADDS them to the canvas (the canvas is not cleared
first). -/
def loadStageDesign {α : Type} (sm : SM α) (stageId : String) : SM α :=
  match (sm.stages.find? (fun p => p.1 = stageId)).map Prod.snd with
  | none => sm
  | some stage =>
      match stage.designState with
      | none => sm
      | some objs => { sm with canvasDesign := sm.canvasDesign ++ objs }

/-- `CanvasManager.loadProductView`: `clearProductElements()` removes
only the product image and print-area markers (design objects stay on
the canvas), then the new view's product elements are installed. -/
def loadProductView {α : Type} (sm : SM α) (vd : ViewData) : SM α :=
  { sm with canvasProduct := some vd }

/-- `StageManager.switchStage`: saves the outgoing stage's design,
activates the new stage, reloads its product view, and restores its
stored design objects onto the canvas. -/
def switchStage {α : Type} (sm : SM α) (stageId : String) : SM α :=
  match sm.stages.find? (fun p => p.1 = stageId) with
  | none => sm
  | some _ =>
      let sm1 := match sm.currentStage with
        | some _ => saveCurrentStageDesign sm
        | none => sm
      let sm2 := { sm1 with currentStage := some stageId }
      let sm3 := match sm2.getStage stageId with
        | some stage => loadProductView sm2 stage.viewData
        | none => sm2
      loadStageDesign sm3 stageId

/-! ## Color switching: `Designer.switchColor` -/

/-- A color variant: its id and the per-view background assets. -/
structure Color where
  id : String
  viewImages : List (String × String)
  deriving DecidableEq, Repr

/-- The product data read by `switchColor`: the color list and the view
id list (other view fields play no role here). -/
structure Product where
  colors : List Color
  viewIds : List String
  deriving DecidableEq, Repr

/-- The designer state touched by `switchColor`: loader state, stages,
and the live canvas (design objects + product image). -/
structure DesignerState (α : Type) where
  product : Product
  currentColorIndex : ℕ
  currentViewIndex : ℕ
  stages : List (String × Stage α)
  canvasDesign : List α
  productImage : Option String
  deriving DecidableEq, Repr

/-- `ProductLoader.processView`, restricted to the background asset:
the color's image for the given view, absent when the color has
none. -/
def viewImageFor (color : Color) (viewId : String) : Option String :=
  (color.viewImages.find? (fun p => p.1 = viewId)).map Prod.snd

/-- `CanvasManager.setBackgroundImage`: `if (!imageUrl) return`;
otherwise remove only the product image object and insert the new one
at the back — the design objects are kept on the canvas. -/
def setBackgroundImage {α : Type} (s : DesignerState α) (imageUrl : Option String) :
    DesignerState α :=
  match imageUrl with
  | none => s
  | some url => { s with productImage := some url }

/-- Modelled from the spec: `StageManager.refreshStageImagesForColor`
is called by `Designer.switchColor` but is defined nowhere in the
sources.  Per the spec (§4.3 `switchColorOnly`) it "replaces only the
background asset for every view's session entry, leaving each view's
DesignObjects untouched". -/
def refreshStageImagesForColor {α : Type} (stages : List (String × Stage α))
    (color : Color) : List (String × Stage α) :=
  stages.map (fun p =>
    (p.1, { p.2 with viewData := { image := viewImageFor color p.1 } }))

/-- `Designer.switchColor`: switch the loader's color (no-op on an
unknown id), set the canvas background to the new color's image for the
current view, and refresh every stage's background asset. -/
def switchColor {α : Type} (s : DesignerState α) (colorId : String) : DesignerState α :=
  match s.product.colors.findIdx? (fun c => c.id = colorId) with
  | none => s
  | some idx =>
      match s.product.colors[idx]? with
      | none => s
      | some color =>
          let s1 := { s with currentColorIndex := idx }
          let viewImage := match s1.product.viewIds[s1.currentViewIndex]? with
            | none => none
            | some viewId => viewImageFor color viewId
          let s2 := setBackgroundImage s1 viewImage
          { s2 with stages := refreshStageImagesForColor s2.stages color }

/-! ## Undo/redo history: `HistoryManager` -/

/-- `this.maxHistory = 50`. -/
def maxHistory : ℕ := 50

/-- JavaScript array indexing `list[i]` with a possibly negative or
out-of-range integer index (`undefined` = `none`). -/
def listGet {α : Type} (l : List α) (i : ℤ) : Option α :=
  if 0 ≤ i then l[i.toNat]? else none

/-- The state of a `HistoryManager` plus the canvas it snapshots.
Serialized scene snapshots (`JSON.stringify(canvas.toJSON())`) are
modelled by an arbitrary type `α` with decidable equality, so the
source's strict string comparison is equality. -/
structure HM (α : Type) where
  history : List α
  historyIndex : ℤ
  isRestoring : Bool
  canvas : α
  deriving DecidableEq, Repr

/-- The `HistoryManager` constructor state over an initial canvas. -/
def hmInit {α : Type} (c : α) : HM α :=
  { history := [], historyIndex := -1, isRestoring := false, canvas := c }

/-- `HistoryManager.save`: truncate any redo tail, dedupe against the
top of the (truncated) stack, push, and either advance the pointer or
drop the oldest entry at capacity. -/
def hmSave {α : Type} [DecidableEq α] (s : HM α) : HM α :=
  if s.isRestoring then s
  else
    let state := s.canvas
    let hist := if s.historyIndex < (s.history.length : ℤ) - 1 then
        s.history.take (s.historyIndex + 1).toNat
      else s.history
    if hist.length > 0 ∧ listGet hist s.historyIndex = some state then
      { s with history := hist }
    else
      let hist2 := hist ++ [state]
      if hist2.length > maxHistory then
        { s with history := hist2.drop 1 }
      else
        { s with history := hist2, historyIndex := s.historyIndex + 1 }

/-- `HistoryManager.undo`: if the pointer can move back, decrement it
and restore that snapshot to the canvas (the source parses
`history[index]`, which its guard plus the class invariant keep in
range; out of range the model leaves the canvas unchanged). -/
def hmUndo {α : Type} (s : HM α) : HM α :=
  if s.historyIndex > 0 then
    { s with historyIndex := s.historyIndex - 1
             canvas := (listGet s.history (s.historyIndex - 1)).getD s.canvas }
  else s

/-- `HistoryManager.redo`: if the pointer can move forward, increment
it and restore that snapshot. -/
def hmRedo {α : Type} (s : HM α) : HM α :=
  if s.historyIndex < (s.history.length : ℤ) - 1 then
    { s with historyIndex := s.historyIndex + 1
             canvas := (listGet s.history (s.historyIndex + 1)).getD s.canvas }
  else s

/-- The operations that touch the history: a canvas edit (the scene
changes under the manager), `save`, `undo`, `redo`. -/
inductive HOp (α : Type) where
  | edit (c : α)
  | save
  | undo
  | redo
  deriving DecidableEq, Repr

/-- Apply one operation. -/
def hmStep {α : Type} [DecidableEq α] (s : HM α) : HOp α → HM α
  | .edit c => { s with canvas := c }
  | .save => hmSave s
  | .undo => hmUndo s
  | .redo => hmRedo s

/-- Run a sequence of operations. -/
def hmRun {α : Type} [DecidableEq α] (s : HM α) (ops : List (HOp α)) : HM α :=
  ops.foldl hmStep s

/-- 51 saves of 51 pairwise-distinct canvas states, from a fresh
manager. -/
def fiftyOneSaves : List (HOp ℕ) :=
  (List.range 51).flatMap (fun i => [HOp.edit (i + 1), HOp.save])

/-! ## Admin authoring editor: `PrintAreaEditor` -/

namespace PrintAreaEditor

/-- The editor's print-area rectangle (fabric `Rect` with center
origin). -/
structure EditorRect where
  width : ℚ
  height : ℚ
  scaleX : ℚ
  scaleY : ℚ
  left : ℚ
  top : ℚ
  deriving DecidableEq, Repr

/-- The print-area record produced by `getPrintAreaData` and consumed by
`setPrintAreaData`. -/
structure StoredPrintArea where
  widthPercent : ℚ
  heightPercent : ℚ
  leftPercent : ℚ
  topPercent : ℚ
  printWidthInches : ℚ
  printHeightInches : ℚ
  deriving DecidableEq, Repr

/-- The state of the `PrintAreaEditor` that the modelled operations
read and write.  The product image is always present (`imgLeft`,
`imgTop` are its center; `scaledProductWidth/Height` its rendered
size). -/
structure EditorState where
  optionsMaxWidth : ℚ
  optionsMaxHeight : ℚ
  imgLeft : ℚ
  imgTop : ℚ
  scaledProductWidth : ℚ
  scaledProductHeight : ℚ
  printWidthInches : ℚ
  printHeightInches : ℚ
  rect : Option EditorRect
  deriving DecidableEq, Repr

/-- `PrintAreaEditor.updateRectAspectRatio` (admin authoring editor):
recomputes the placed rectangle after the inch dimensions change,
preserving its current displayed area under the new aspect ratio and
then clamping to 90% of the product image.  `sqrt` abstracts
`Math.sqrt`; the result is the new `(width, height)` (scale is reset
to 1). -/
def updateRectAspectRatio (sqrt : ℚ → ℚ) (s : EditorState) (r : EditorRect) : ℚ × ℚ :=
  let aspectRatio := s.printWidthInches / s.printHeightInches
  let currentWidth := r.width * r.scaleX
  let currentHeight := r.height * r.scaleY
  let currentArea := currentWidth * currentHeight
  let newWidth := sqrt (currentArea * aspectRatio)
  let newHeight := sqrt (currentArea / aspectRatio)
  let maxWidth := s.scaledProductWidth * (9 / 10)
  let maxHeight := s.scaledProductHeight * (9 / 10)
  let p1 := if newWidth > maxWidth then (maxWidth, maxWidth / aspectRatio)
            else (newWidth, newHeight)
  if p1.2 > maxHeight then (maxHeight * aspectRatio, maxHeight) else p1

/-- `PrintAreaEditor.addPrintAreaRect`: (re)creates the print-area
rectangle, either from stored percent data or centered with the default
50%×60% box, always letterboxed to the inch aspect ratio. -/
def addPrintAreaRect (s : EditorState) (existingData : Option StoredPrintArea) :
    EditorState :=
  let aspectRatio := s.printWidthInches / s.printHeightInches
  match existingData with
  | some data =>
      let maxWidth := s.scaledProductWidth * (data.widthPercent / 100)
      let maxHeight := s.scaledProductHeight * (data.heightPercent / 100)
      let rectWidth := if maxWidth / maxHeight > aspectRatio then maxHeight * aspectRatio
        else maxWidth
      let rectHeight := if maxWidth / maxHeight > aspectRatio then maxHeight
        else maxWidth / aspectRatio
      let rectLeft := s.optionsMaxWidth / 2 + data.leftPercent / 100 * s.scaledProductWidth
      let rectTop := s.optionsMaxHeight / 2 + data.topPercent / 100 * s.scaledProductHeight
      { s with rect := some ⟨rectWidth, rectHeight, 1, 1, rectLeft, rectTop⟩ }
  | none =>
      let maxWidth := s.scaledProductWidth * (1 / 2)
      let maxHeight := s.scaledProductHeight * (6 / 10)
      let rectWidth := if maxWidth / maxHeight > aspectRatio then maxHeight * aspectRatio
        else maxWidth
      let rectHeight := if maxWidth / maxHeight > aspectRatio then maxHeight
        else maxWidth / aspectRatio
      { s with rect := some ⟨rectWidth, rectHeight, 1, 1,
          s.optionsMaxWidth / 2, s.optionsMaxHeight / 2⟩ }

/-- `PrintAreaEditor.getPrintAreaData`: serializes the placed rectangle
to percentages of the product image plus the inch dimensions. -/
def getPrintAreaData (s : EditorState) : Option StoredPrintArea :=
  match s.rect with
  | none => none
  | some rect =>
      let rectWidth := rect.width * rect.scaleX
      let rectHeight := rect.height * rect.scaleY
      let offsetX := rect.left - s.imgLeft
      let offsetY := rect.top - s.imgTop
      some
        { widthPercent := rectWidth / s.scaledProductWidth * 100
          heightPercent := rectHeight / s.scaledProductHeight * 100
          leftPercent := offsetX / s.scaledProductWidth * 100
          topPercent := offsetY / s.scaledProductHeight * 100
          printWidthInches := s.printWidthInches
          printHeightInches := s.printHeightInches }

/-- `PrintAreaEditor.setPrintAreaData`: restores the inch dimensions
(ignoring falsy values, as the source's truthiness test does) and
recreates the rectangle from the stored data. -/
def setPrintAreaData (s : EditorState) (data : StoredPrintArea) : EditorState :=
  let s := { s with
    printWidthInches := Designer.jsOr data.printWidthInches s.printWidthInches
    printHeightInches := Designer.jsOr data.printHeightInches s.printHeightInches }
  addPrintAreaRect s (some data)

end PrintAreaEditor

end Designer

namespace Designer

/-- C1: the rectangle resolved by `setupPrintArea` has exactly the
physical aspect ratio `w/h`, fits inside the percent bounding box
`(maxW, maxH)`, and touches the box on at least one axis. -/
theorem setupPrintArea_letterbox
    (imgCenterX imgCenterY scaledW scaledH : ℚ) (d : PrintAreaData)
    (hw : 0 < d.widthInches) (hh : 0 < d.heightInches)
    (hmaxW : 0 < scaledW * (d.widthPercent / 100))
    (hmaxH : 0 < scaledH * (d.heightPercent / 100)) :
    (setupPrintArea imgCenterX imgCenterY scaledW scaledH d).width /
      (setupPrintArea imgCenterX imgCenterY scaledW scaledH d).height =
        d.widthInches / d.heightInches ∧
    (setupPrintArea imgCenterX imgCenterY scaledW scaledH d).width ≤
        scaledW * (d.widthPercent / 100) ∧
    (setupPrintArea imgCenterX imgCenterY scaledW scaledH d).height ≤
        scaledH * (d.heightPercent / 100) ∧
    ((setupPrintArea imgCenterX imgCenterY scaledW scaledH d).width =
        scaledW * (d.widthPercent / 100) ∨
      (setupPrintArea imgCenterX imgCenterY scaledW scaledH d).height =
        scaledH * (d.heightPercent / 100)) := by
  have hwne : d.widthInches ≠ 0 := ne_of_gt hw
  have hhne : d.heightInches ≠ 0 := ne_of_gt hh
  have key := letterbox_fit (scaledW * (d.widthPercent / 100))
    (scaledH * (d.heightPercent / 100)) (d.widthInches / d.heightInches)
    hmaxW hmaxH (div_pos hw hh)
  have hbw : (setupPrintArea imgCenterX imgCenterY scaledW scaledH d).width =
      if scaledW * (d.widthPercent / 100) / (scaledH * (d.heightPercent / 100)) >
          d.widthInches / d.heightInches then
        scaledH * (d.heightPercent / 100) * (d.widthInches / d.heightInches)
      else scaledW * (d.widthPercent / 100) := by
    simp only [setupPrintArea, jsOr, if_neg hwne, if_neg hhne]
  have hbh : (setupPrintArea imgCenterX imgCenterY scaledW scaledH d).height =
      if scaledW * (d.widthPercent / 100) / (scaledH * (d.heightPercent / 100)) >
          d.widthInches / d.heightInches then
        scaledH * (d.heightPercent / 100)
      else scaledW * (d.widthPercent / 100) / (d.widthInches / d.heightInches) := by
    simp only [setupPrintArea, jsOr, if_neg hwne, if_neg hhne]
  rw [hbw, hbh]
  exact key

/-- Witness for C1 at a concrete input: an 8×10-inch spec in a 40%×50%
box on a 500×400 rendered product. -/
theorem setupPrintArea_letterbox_witness :
    (0:ℚ) < 8 ∧
    (setupPrintArea 250 200 500 400
      { widthInches := 8, heightInches := 10, widthPercent := 40,
        heightPercent := 50, leftPercent := 0, topPercent := 0 }).width /
    (setupPrintArea 250 200 500 400
      { widthInches := 8, heightInches := 10, widthPercent := 40,
        heightPercent := 50, leftPercent := 0, topPercent := 0 }).height = 8 / 10 := by
  refine ⟨by norm_num, ?_⟩
  have h := setupPrintArea_letterbox 250 200 500 400
    { widthInches := 8, heightInches := 10, widthPercent := 40,
      heightPercent := 50, leftPercent := 0, topPercent := 0 }
    (by norm_num) (by norm_num) (by norm_num) (by norm_num)
  exact h.1

/-- Two nonnegative rationals with equal squares are equal. -/
theorem eq_of_sq_eq_sq_of_nonneg {a b : ℚ} (ha : 0 ≤ a) (hb : 0 ≤ b)
    (h : a ^ 2 = b ^ 2) : a = b := by
  nlinarith [sq_nonneg (a - b), sq_nonneg (a + b)]

/-- C9: editing the inch dimensions of a placed authoring rectangle
resizes it to `newW = sqrt(area·r)`, `newH = sqrt(area/r)` — preserving
the displayed area under the new ratio `r` — and then re-clamps to the
90% image bounds; the clamping always maintains the new ratio
(`W = r·H`), and when no clamp triggers the result is exactly the
square roots and the area is preserved (`W·H = area`). -/
theorem updateRectAspectRatio_area_preserving
    (sqrt : ℚ → ℚ) (s : PrintAreaEditor.EditorState) (r : PrintAreaEditor.EditorRect)
    (hw : 0 < s.printWidthInches) (hh : 0 < s.printHeightInches)
    (hcw : 0 < r.width * r.scaleX) (hch : 0 < r.height * r.scaleY)
    (hsW : 0 ≤ sqrt (r.width * r.scaleX * (r.height * r.scaleY) *
        (s.printWidthInches / s.printHeightInches)) ∧
      sqrt (r.width * r.scaleX * (r.height * r.scaleY) *
        (s.printWidthInches / s.printHeightInches)) ^ 2 =
      r.width * r.scaleX * (r.height * r.scaleY) *
        (s.printWidthInches / s.printHeightInches))
    (hsH : 0 ≤ sqrt (r.width * r.scaleX * (r.height * r.scaleY) /
        (s.printWidthInches / s.printHeightInches)) ∧
      sqrt (r.width * r.scaleX * (r.height * r.scaleY) /
        (s.printWidthInches / s.printHeightInches)) ^ 2 =
      r.width * r.scaleX * (r.height * r.scaleY) /
        (s.printWidthInches / s.printHeightInches)) :
    (PrintAreaEditor.updateRectAspectRatio sqrt s r).1 =
      (s.printWidthInches / s.printHeightInches) *
        (PrintAreaEditor.updateRectAspectRatio sqrt s r).2 ∧
    (¬ sqrt (r.width * r.scaleX * (r.height * r.scaleY) *
          (s.printWidthInches / s.printHeightInches)) >
        s.scaledProductWidth * (9 / 10) →
      ¬ sqrt (r.width * r.scaleX * (r.height * r.scaleY) /
          (s.printWidthInches / s.printHeightInches)) >
        s.scaledProductHeight * (9 / 10) →
      (PrintAreaEditor.updateRectAspectRatio sqrt s r).1 *
        (PrintAreaEditor.updateRectAspectRatio sqrt s r).2 =
        r.width * r.scaleX * (r.height * r.scaleY)) := by
  set ratio := s.printWidthInches / s.printHeightInches with hratio
  have hrpos : 0 < ratio := div_pos hw hh
  have harea : 0 < r.width * r.scaleX * (r.height * r.scaleY) := mul_pos hcw hch
  set a := r.width * r.scaleX * (r.height * r.scaleY) with ha
  set nW := sqrt (a * ratio) with hnW
  set nH := sqrt (a / ratio) with hnH
  have hres : PrintAreaEditor.updateRectAspectRatio sqrt s r =
      (if (if nW > s.scaledProductWidth * (9 / 10) then
            (s.scaledProductWidth * (9 / 10), s.scaledProductWidth * (9 / 10) / ratio)
          else (nW, nH)).2 > s.scaledProductHeight * (9 / 10) then
          (s.scaledProductHeight * (9 / 10) * ratio, s.scaledProductHeight * (9 / 10))
        else
          (if nW > s.scaledProductWidth * (9 / 10) then
            (s.scaledProductWidth * (9 / 10), s.scaledProductWidth * (9 / 10) / ratio)
          else (nW, nH))) := rfl
  constructor
  · -- the final ratio is always the new aspect ratio
    rw [hres]
    by_cases h2 : (if nW > s.scaledProductWidth * (9 / 10) then
        (s.scaledProductWidth * (9 / 10), s.scaledProductWidth * (9 / 10) / ratio)
      else (nW, nH)).2 > s.scaledProductHeight * (9 / 10)
    · rw [if_pos h2]; ring
    · rw [if_neg h2]
      by_cases h1 : nW > s.scaledProductWidth * (9 / 10)
      · rw [if_pos h1]
        field_simp
        ring
      · rw [if_neg h1]
        -- unclamped: nW = ratio * nH because their squares agree
        refine eq_of_sq_eq_sq_of_nonneg hsW.1 (mul_nonneg hrpos.le hsH.1) ?_
        rw [mul_pow, hsW.2, hsH.2]
        field_simp
        ring
  · -- unclamped: the displayed area is preserved
    intro h1 h2'
    have h2 : ¬ (if nW > s.scaledProductWidth * (9 / 10) then
        (s.scaledProductWidth * (9 / 10), s.scaledProductWidth * (9 / 10) / ratio)
      else (nW, nH)).2 > s.scaledProductHeight * (9 / 10) := by
      rw [if_neg h1]; exact h2'
    rw [hres, if_neg h2, if_neg h1]
    refine eq_of_sq_eq_sq_of_nonneg (mul_nonneg hsW.1 hsH.1) (le_of_lt harea) ?_
    rw [mul_pow, hsW.2, hsH.2]
    field_simp
    ring

/-- Witness for C9: a 4×1 rectangle, new ratio 1:1, on a large product
image; the concrete square-root table maps 4 to 2, and the resulting
rectangle keeps ratio 1 and area 4. -/
theorem updateRectAspectRatio_area_preserving_witness :
    ((0:ℚ) < 1 ∧ (0:ℚ) < 4 * 1 * (1 * 1)) ∧
    (PrintAreaEditor.updateRectAspectRatio (fun x => if x = 4 then 2 else 0)
      { optionsMaxWidth := 500, optionsMaxHeight := 400, imgLeft := 250,
        imgTop := 200, scaledProductWidth := 100, scaledProductHeight := 100,
        printWidthInches := 1, printHeightInches := 1, rect := none }
      ⟨4, 1, 1, 1, 0, 0⟩).1 =
    1 / 1 * (PrintAreaEditor.updateRectAspectRatio (fun x => if x = 4 then 2 else 0)
      { optionsMaxWidth := 500, optionsMaxHeight := 400, imgLeft := 250,
        imgTop := 200, scaledProductWidth := 100, scaledProductHeight := 100,
        printWidthInches := 1, printHeightInches := 1, rect := none }
      ⟨4, 1, 1, 1, 0, 0⟩).2 ∧
    (PrintAreaEditor.updateRectAspectRatio (fun x => if x = 4 then 2 else 0)
      { optionsMaxWidth := 500, optionsMaxHeight := 400, imgLeft := 250,
        imgTop := 200, scaledProductWidth := 100, scaledProductHeight := 100,
        printWidthInches := 1, printHeightInches := 1, rect := none }
      ⟨4, 1, 1, 1, 0, 0⟩).1 *
    (PrintAreaEditor.updateRectAspectRatio (fun x => if x = 4 then 2 else 0)
      { optionsMaxWidth := 500, optionsMaxHeight := 400, imgLeft := 250,
        imgTop := 200, scaledProductWidth := 100, scaledProductHeight := 100,
        printWidthInches := 1, printHeightInches := 1, rect := none }
      ⟨4, 1, 1, 1, 0, 0⟩).2 = 4 * 1 * (1 * 1) := by
  have h := updateRectAspectRatio_area_preserving (fun x => if x = 4 then 2 else 0)
    { optionsMaxWidth := 500, optionsMaxHeight := 400, imgLeft := 250,
      imgTop := 200, scaledProductWidth := 100, scaledProductHeight := 100,
      printWidthInches := 1, printHeightInches := 1, rect := none }
    ⟨4, 1, 1, 1, 0, 0⟩
    (by norm_num) (by norm_num) (by norm_num) (by norm_num)
    (by norm_num) (by norm_num)
  exact ⟨⟨by norm_num, by norm_num⟩, h.1, h.2 (by norm_num) (by norm_num)⟩

/-- C10: saving an authoring rectangle whose displayed aspect ratio
equals the inch ratio with `getPrintAreaData` and restoring it with
`setPrintAreaData` over the same product image recreates a rectangle
with the same displayed width, height and center position. -/
theorem printArea_roundtrip
    (s : PrintAreaEditor.EditorState) (rect : PrintAreaEditor.EditorRect)
    (d : PrintAreaEditor.StoredPrintArea)
    (hrect : s.rect = some rect)
    (himgL : s.imgLeft = s.optionsMaxWidth / 2)
    (himgT : s.imgTop = s.optionsMaxHeight / 2)
    (hsw : 0 < s.scaledProductWidth) (hsh : 0 < s.scaledProductHeight)
    (hwIn : 0 < s.printWidthInches) (hhIn : 0 < s.printHeightInches)
    (hrw : 0 < rect.width * rect.scaleX) (hrh : 0 < rect.height * rect.scaleY)
    (hratio : rect.width * rect.scaleX / (rect.height * rect.scaleY) =
      s.printWidthInches / s.printHeightInches)
    (hd : PrintAreaEditor.getPrintAreaData s = some d) :
    (PrintAreaEditor.setPrintAreaData s d).rect = some
      { width := rect.width * rect.scaleX, height := rect.height * rect.scaleY
        scaleX := 1, scaleY := 1, left := rect.left, top := rect.top } := by
  have hd' : d =
      { widthPercent := rect.width * rect.scaleX / s.scaledProductWidth * 100
        heightPercent := rect.height * rect.scaleY / s.scaledProductHeight * 100
        leftPercent := (rect.left - s.imgLeft) / s.scaledProductWidth * 100
        topPercent := (rect.top - s.imgTop) / s.scaledProductHeight * 100
        printWidthInches := s.printWidthInches
        printHeightInches := s.printHeightInches } := by
    have : PrintAreaEditor.getPrintAreaData s = some _ := hd
    rw [PrintAreaEditor.getPrintAreaData, hrect] at this
    exact (Option.some_injective _ this).symm
  subst hd'
  have hwne : s.printWidthInches ≠ 0 := ne_of_gt hwIn
  have hhne : s.printHeightInches ≠ 0 := ne_of_gt hhIn
  have hswne : s.scaledProductWidth ≠ 0 := ne_of_gt hsw
  have hshne : s.scaledProductHeight ≠ 0 := ne_of_gt hsh
  have hrwne : rect.width * rect.scaleX ≠ 0 := ne_of_gt hrw
  have hrhne : rect.height * rect.scaleY ≠ 0 := ne_of_gt hrh
  -- the reconstructed bounding box equals the rectangle itself
  have hmaxW : s.scaledProductWidth *
      (rect.width * rect.scaleX / s.scaledProductWidth * 100 / 100) =
      rect.width * rect.scaleX := by field_simp; ring
  have hmaxH : s.scaledProductHeight *
      (rect.height * rect.scaleY / s.scaledProductHeight * 100 / 100) =
      rect.height * rect.scaleY := by field_simp; ring
  have hheight : rect.width * rect.scaleX /
      (s.printWidthInches / s.printHeightInches) = rect.height * rect.scaleY := by
    rw [← hratio]
    field_simp
  have hleft : s.optionsMaxWidth / 2 +
      (rect.left - s.imgLeft) / s.scaledProductWidth * 100 / 100 * s.scaledProductWidth =
      rect.left := by
    rw [himgL]; field_simp; ring
  have htop : s.optionsMaxHeight / 2 +
      (rect.top - s.imgTop) / s.scaledProductHeight * 100 / 100 * s.scaledProductHeight =
      rect.top := by
    rw [himgT]; field_simp; ring
  simp only [PrintAreaEditor.setPrintAreaData, PrintAreaEditor.addPrintAreaRect,
    jsOr, if_neg hwne, if_neg hhne, hmaxW, hmaxH]
  have hcond : ¬ (rect.width * rect.scaleX / (rect.height * rect.scaleY) >
      s.printWidthInches / s.printHeightInches) := by
    rw [hratio]
    exact lt_irrefl _
  rw [if_neg hcond, hheight, hleft, htop, ite_self]

/-- Witness for C10: a 100×100 rectangle at the image center with a 1:1
inch ratio round-trips exactly. -/
theorem printArea_roundtrip_witness :
    (PrintAreaEditor.setPrintAreaData
      { optionsMaxWidth := 500, optionsMaxHeight := 400, imgLeft := 250,
        imgTop := 200, scaledProductWidth := 300, scaledProductHeight := 300,
        printWidthInches := 1, printHeightInches := 1,
        rect := some ⟨100, 100, 1, 1, 280, 230⟩ }
      ⟨100 / 3, 100 / 3, 10, 10, 1, 1⟩).rect =
      some ⟨100 * 1, 100 * 1, 1, 1, 280, 230⟩ := by
  have h := printArea_roundtrip
    { optionsMaxWidth := 500, optionsMaxHeight := 400, imgLeft := 250,
      imgTop := 200, scaledProductWidth := 300, scaledProductHeight := 300,
      printWidthInches := 1, printHeightInches := 1,
      rect := some ⟨100, 100, 1, 1, 280, 230⟩ }
    ⟨100, 100, 1, 1, 280, 230⟩
    ⟨100 / 3, 100 / 3, 10, 10, 1, 1⟩
    rfl (by norm_num) (by norm_num) (by norm_num) (by norm_num)
    (by norm_num) (by norm_num) (by norm_num) (by norm_num)
    (by norm_num)
    (by simp only [PrintAreaEditor.getPrintAreaData]; norm_num)
  exact h

/-- Characterisation of the view-surcharge fold from an arbitrary
accumulator. -/
theorem viewsPricing_foldl (views : List View) (p : ℚ) (ids : List String)
    (t : ℚ) (c : ℕ) (first : Bool) :
    ids.foldl (viewsPricingStep views p) (t, c, first) =
      (t + alwaysExtraTotal views ids +
        p * (if first then (regularViewCount views ids - 1 : ℕ) else regularViewCount views ids),
       c + (if first then regularViewCount views ids - 1 else regularViewCount views ids),
       first && (regularViewCount views ids == 0)) := by
  induction ids generalizing t c first with
  | nil =>
      simp [alwaysExtraTotal, regularViewCount, knownViews]
  | cons stageId rest ih =>
      rw [List.foldl_cons]
      rcases hfind : views.find? (fun v => v.id = stageId) with _ | v
      · rw [show viewsPricingStep views p (t, c, first) stageId = (t, c, first) by
          rw [viewsPricingStep, hfind]]
        rw [ih]
        simp [alwaysExtraTotal, regularViewCount, knownViews, hfind]
      · by_cases halways : v.alwaysChargeExtra
        · have hreg : regularViewCount views (stageId :: rest) =
              regularViewCount views rest := by
            simp only [regularViewCount, knownViews, List.filterMap_cons, hfind,
              List.filter_cons, halways]
            simp
          have hextra : alwaysExtraTotal views (stageId :: rest) =
              v.extraPrice + alwaysExtraTotal views rest := by
            simp only [alwaysExtraTotal, knownViews, List.filterMap_cons, hfind,
              List.filter_cons, halways]
            simp
          rw [show viewsPricingStep views p (t, c, first) stageId =
              (t + v.extraPrice, c, first) by
            rw [viewsPricingStep, hfind]; simp [halways]]
          rw [ih, hreg, hextra]
          simp only [Prod.mk.injEq]
          exact ⟨by ring, trivial⟩
        · have hstep : viewsPricingStep views p (t, c, first) stageId =
              if first then (t, c, false) else (t + p, c + 1, false) := by
            rw [viewsPricingStep, hfind]
            simp [halways]
          have hreg : regularViewCount views (stageId :: rest) =
              regularViewCount views rest + 1 := by
            simp only [regularViewCount, knownViews, List.filterMap_cons, hfind,
              List.filter_cons, halways]
            simp
          have hextra : alwaysExtraTotal views (stageId :: rest) =
              alwaysExtraTotal views rest := by
            simp only [alwaysExtraTotal, knownViews, List.filterMap_cons, hfind,
              List.filter_cons, halways]
            simp
          rw [hstep, hreg, hextra]
          cases first with
          | true =>
              rw [if_pos rfl, ih]
              simp only [Bool.false_eq_true, if_false, Nat.add_sub_cancel,
                Bool.false_and, if_true, Prod.mk.injEq]
              exact ⟨trivial, trivial, by simp⟩
          | false =>
              rw [if_neg (by simp), ih]
              simp only [Bool.false_eq_true, if_false, Bool.false_and,
                Prod.mk.injEq]
              exact ⟨by push_cast; ring, by omega, trivial⟩

/-- C2: for every raster object carrying a recorded original source,
`renderObjectHighRes` draws the image reloaded from `_originalSrc` at
`obj.width*obj.scaleX*multiplier` × `obj.height*obj.scaleY*multiplier`,
translated to `(obj.left*multiplier, obj.top*multiplier)` and rotated
by the object's angle; and `addImage` records exactly the uploaded
source and its natural dimensions as that original, before any display
downscaling. -/
theorem renderObjectHighRes_original_source
    (obj : FabObj) (multiplier : ℚ) (src : String)
    (htype : obj.type = "image") (hsrc : obj.originalSrc = some src) :
    renderObjectHighRes obj multiplier =
      DrawCmd.image src (obj.width * obj.scaleX * multiplier)
        (obj.height * obj.scaleY * multiplier)
        (obj.left * multiplier) (obj.top * multiplier)
        (jsOr obj.angle 0) (jsOr obj.opacity 1) ∧
    (∀ (url : String) (naturalWidth naturalHeight : ℚ)
        (printAreaBounds : Option PrintAreaBounds) (canvasWidth canvasHeight : ℚ),
      (addImage url naturalWidth naturalHeight printAreaBounds canvasWidth
          canvasHeight).originalSrc = some url ∧
      (addImage url naturalWidth naturalHeight printAreaBounds canvasWidth
          canvasHeight).originalWidth = naturalWidth ∧
      (addImage url naturalWidth naturalHeight printAreaBounds canvasWidth
          canvasHeight).originalHeight = naturalHeight) := by
  constructor
  · rw [renderObjectHighRes, hsrc]
    have : decide (obj.type = "image") = true := by rw [htype]; rfl
    rw [this]
  · intro url nw nh b cw ch
    refine ⟨rfl, rfl, rfl⟩

/-- Witness for C2: a concrete image object at 50% scale is drawn from
its original source at displayed size × multiplier. -/
theorem renderObjectHighRes_original_source_witness :
    renderObjectHighRes
      { type := "image", originalSrc := some "assets/logo.png",
        originalWidth := 800, originalHeight := 600, width := 800, height := 600,
        scaleX := 1 / 2, scaleY := 1 / 2, left := 300, top := 300, angle := 45,
        opacity := 1, fontSize := 0, text := "" } 4 =
      DrawCmd.image "assets/logo.png" (800 * (1 / 2) * 4) (600 * (1 / 2) * 4)
        (300 * 4) (300 * 4) (jsOr 45 0) (jsOr 1 1) := by
  have h := renderObjectHighRes_original_source
    { type := "image", originalSrc := some "assets/logo.png",
      originalWidth := 800, originalHeight := 600, width := 800, height := 600,
      scaleX := 1 / 2, scaleY := 1 / 2, left := 300, top := 300, angle := 45,
      opacity := 1, fontSize := 0, text := "" } 4 "assets/logo.png" rfl rfl
  exact h.1

/-- Characterisation of `exportForPrint`'s loop from an arbitrary
accumulator: drawn commands in order, failures counted. -/
theorem exportForPrint_foldl (fails : String → Bool) (m : ℚ)
    (objects : List FabObj) (acc : List DrawCmd × ℕ) :
    objects.foldl (exportStep fails m) acc =
      (acc.1 ++ objects.filterMap (fun o => (renderObjectHighResE fails o m).1),
       acc.2 + (objects.filter (fun o =>
         (renderObjectHighResE fails o m).1 = none)).length) := by
  induction objects generalizing acc with
  | nil => simp
  | cons obj rest ih =>
      rw [List.foldl_cons, List.filterMap_cons, List.filter_cons]
      rcases hr : (renderObjectHighResE fails obj m).1 with _ | cmd
      · have hstep : exportStep fails m acc obj = (acc.1, acc.2 + 1) := by
          rw [exportStep]
          rcases h : renderObjectHighResE fails obj m with ⟨o, b⟩
          rw [h] at hr
          cases o with
          | none => rfl
          | some c => exact absurd hr (by simp)
        rw [hstep, ih]
        simp only [Prod.mk.injEq]
        refine ⟨by simp, ?_⟩
        simp
        try omega
      · have hstep : exportStep fails m acc obj = (acc.1 ++ [cmd], acc.2) := by
          rw [exportStep]
          rcases h : renderObjectHighResE fails obj m with ⟨o, b⟩
          rw [h] at hr
          cases o with
          | none => exact absurd hr (by simp)
          | some c =>
              simp only [Option.some.injEq] at hr
              rw [hr]
        rw [hstep, ih]
        simp

/-- C8 (amended): asset-reload failures never abort or reject the
export.  The export always resolves, drawing every object whose asset
loads (in order) and skipping-and-counting the failed ones; since the
export promise never rejects, `downloadPrint`'s catch never fires, so
no error is surfaced to the user, no matter how many objects failed. -/
theorem exportForPrint_best_effort (fails : String → Bool)
    (objects : List FabObj) (targetDPI screenDPI : ℚ) :
    exportForPrint fails objects targetDPI screenDPI =
      Except.ok
        (objects.filterMap (fun o =>
          (renderObjectHighResE fails o (targetDPI / screenDPI)).1),
         (objects.filter (fun o =>
           (renderObjectHighResE fails o (targetDPI / screenDPI)).1 = none)).length) ∧
    downloadPrintAlerted fails objects = false := by
  constructor
  · rw [exportForPrint, exportForPrint_foldl]
    simp
  · rw [downloadPrintAlerted, exportForPrint]

/-- C8 counterexample: with a single raster object whose original asset
fails to reload, the export completes with one failed object and a
partial (empty) image, yet no error is surfaced to the user — the
claim's final clause is false on the code. -/
theorem exportForPrint_no_error_surfaced :
    exportForPrint (fun _ => true)
      [{ type := "image", originalSrc := some "assets/logo.png",
         originalWidth := 800, originalHeight := 600, width := 800, height := 600,
         scaleX := 1, scaleY := 1, left := 300, top := 300, angle := 0,
         opacity := 1, fontSize := 0, text := "" }] 300 72 =
      Except.ok ([], 1) ∧
    ¬ downloadPrintAlerted (fun _ => true)
      [{ type := "image", originalSrc := some "assets/logo.png",
         originalWidth := 800, originalHeight := 600, width := 800, height := 600,
         scaleX := 1, scaleY := 1, left := 300, top := 300, angle := 0,
         opacity := 1, fontSize := 0, text := "" }] = true := by
  refine ⟨rfl, by decide⟩

/-- `listGet` on an appended list, index inside the first part. -/
theorem listGet_append_left {α : Type} (l l₂ : List α) (i : ℤ)
    (h : i < (l.length : ℤ)) : listGet (l ++ l₂) i = listGet l i := by
  rw [listGet, listGet]
  by_cases h0 : 0 ≤ i
  · rw [if_pos h0, if_pos h0, List.getElem?_append_left]
    omega
  · rw [if_neg h0, if_neg h0]

/-- `listGet` at the freshly appended element. -/
theorem listGet_concat_self {α : Type} (l : List α) (x : α) :
    listGet (l ++ [x]) (l.length : ℤ) = some x := by
  rw [listGet, if_pos (by positivity)]
  simp

/-- `listGet` after dropping the head. -/
theorem listGet_drop_one {α : Type} (l : List α) (i : ℤ) (h : 0 ≤ i) :
    listGet (l.drop 1) i = listGet l (i + 1) := by
  rw [listGet, if_pos h, listGet, if_pos (by omega), List.getElem?_drop]
  congr 1
  omega

/-- A `listGet` hit is a member of the list. -/
theorem listGet_mem {α : Type} {l : List α} {i : ℤ} {a : α}
    (h : listGet l i = some a) : a ∈ l := by
  rw [listGet] at h
  by_cases h0 : 0 ≤ i
  · rw [if_pos h0] at h
    obtain ⟨hn, rfl⟩ := List.getElem?_eq_some_iff.mp h
    exact List.getElem_mem hn
  · rw [if_neg h0] at h
    exact absurd h (by simp)

/-- C6: from a state whose top of stack is the pre-save snapshot `s0`
and whose canvas has changed to a distinct state, one `save()` followed
by `undo()` restores the canvas to `s0`, and `redo()` immediately after
restores the post-save state exactly. -/
theorem hm_save_undo_redo {α : Type} [DecidableEq α] (s : HM α) (s0 : α)
    (hrest : s.isRestoring = false)
    (hne : s.history ≠ [])
    (hidx : s.historyIndex = (s.history.length : ℤ) - 1)
    (htop : listGet s.history s.historyIndex = some s0)
    (hchanged : s.canvas ≠ s0) :
    (hmUndo (hmSave s)).canvas = s0 ∧
    hmRedo (hmUndo (hmSave s)) = hmSave s := by
  have hlen : 1 ≤ s.history.length := List.length_pos.mpr hne
  have hnotrunc : ¬ (s.historyIndex < (s.history.length : ℤ) - 1) := by omega
  have hnodedupe : ¬ (s.history.length > 0 ∧
      listGet s.history s.historyIndex = some s.canvas) := by
    rintro ⟨-, hdup⟩
    rw [htop] at hdup
    exact hchanged (Option.some_injective _ hdup).symm
  have hsave : hmSave s =
      if (s.history ++ [s.canvas]).length > maxHistory then
        { s with history := (s.history ++ [s.canvas]).drop 1 }
      else
        { s with history := s.history ++ [s.canvas]
                 historyIndex := s.historyIndex + 1 } := by
    rw [hmSave, if_neg (by rw [hrest]; exact Bool.false_ne_true), if_neg hnotrunc,
      if_neg hnodedupe]
  by_cases hcap : (s.history ++ [s.canvas]).length > maxHistory
  · -- at capacity: the oldest snapshot is dropped, the pointer stays
    have hlen50 : maxHistory ≤ s.history.length := by
      simp only [List.length_append, List.length_singleton] at hcap
      omega
    rw [hsave, if_pos hcap]
    have hundo :
        hmUndo ⟨(s.history ++ [s.canvas]).drop 1, s.historyIndex, s.isRestoring, s.canvas⟩ =
        (⟨(s.history ++ [s.canvas]).drop 1, s.historyIndex - 1, s.isRestoring, s0⟩ : HM α) := by
      rw [hmUndo]
      simp only
      rw [if_pos (by simp only [maxHistory] at hlen50; omega)]
      rw [listGet_drop_one _ _ (by simp only [maxHistory] at hlen50; omega)]
      rw [show s.historyIndex - 1 + 1 = s.historyIndex by ring]
      rw [listGet_append_left _ _ _ (by omega), htop]
      rfl
    rw [hundo]
    constructor
    · rfl
    · rw [hmRedo]
      simp only
      rw [if_pos (by
        simp only [List.length_drop, List.length_append, List.length_singleton]
        simp only [maxHistory] at hlen50
        omega)]
      rw [listGet_drop_one _ _ (by simp only [maxHistory] at hlen50; omega)]
      rw [show s.historyIndex - 1 + 1 + 1 = (s.history.length : ℤ) by omega]
      rw [listGet_concat_self]
      simp only [Option.getD_some]
      congr 1
      omega
  · -- below capacity: append and advance the pointer
    rw [hsave, if_neg hcap]
    have hundo :
        hmUndo ⟨s.history ++ [s.canvas], s.historyIndex + 1, s.isRestoring, s.canvas⟩ =
        (⟨s.history ++ [s.canvas], s.historyIndex, s.isRestoring, s0⟩ : HM α) := by
      rw [hmUndo]
      simp only
      rw [if_pos (by omega)]
      rw [show s.historyIndex + 1 - 1 = s.historyIndex by ring]
      rw [listGet_append_left _ _ _ (by omega), htop]
      rfl
    rw [hundo]
    constructor
    · rfl
    · rw [hmRedo]
      simp only
      rw [if_pos (by
        simp only [List.length_append, List.length_singleton]
        omega)]
      rw [show s.historyIndex + 1 = (s.history.length : ℤ) by omega]
      rw [listGet_concat_self]
      rfl

/-- Witness for C6: history `[10]` with the canvas edited to `20`; after
`save()`, `undo()` shows `10` and `redo()` shows `20` again. -/
theorem hm_save_undo_redo_witness :
    (hmUndo (hmSave (⟨[10], 0, false, 20⟩ : HM ℕ))).canvas = 10 ∧
    hmRedo (hmUndo (hmSave (⟨[10], 0, false, 20⟩ : HM ℕ))) =
      hmSave (⟨[10], 0, false, 20⟩ : HM ℕ) :=
  hm_save_undo_redo (⟨[10], 0, false, 20⟩ : HM ℕ)
    10 rfl (by decide) (by decide) (by decide) (by decide)

/-- `setBackgroundImage` keeps the canvas's design objects. -/
theorem setBackgroundImage_canvasDesign {α : Type} (s : DesignerState α)
    (imageUrl : Option String) :
    (setBackgroundImage s imageUrl).canvasDesign = s.canvasDesign := by
  rcases imageUrl with _ | url
  · rfl
  · rfl

/-- `setBackgroundImage` does not touch the stage map. -/
theorem setBackgroundImage_stages {α : Type} (s : DesignerState α)
    (imageUrl : Option String) :
    (setBackgroundImage s imageUrl).stages = s.stages := by
  rcases imageUrl with _ | url
  · rfl
  · rfl

/-- Refreshing stage background assets preserves every stage's stored
decoration list. -/
theorem refreshStageImagesForColor_designState {α : Type}
    (stages : List (String × Stage α)) (color : Color) :
    (refreshStageImagesForColor stages color).map (fun p => (p.1, p.2.designState)) =
      stages.map (fun p => (p.1, p.2.designState)) := by
  rw [refreshStageImagesForColor, List.map_map]
  rfl

/-- C4: for a color id known to the product, `switchColor` leaves every
stage's stored decoration list unchanged and the live design objects on
the canvas unchanged — only background assets differ; and
`setBackgroundImage` itself replaces only the product image while the
design objects remain. -/
theorem switchColor_preserves_designs {α : Type} (s : DesignerState α)
    (colorId : String)
    (_hknown : (s.product.colors.findIdx? (fun c => c.id = colorId)).isSome) :
    (switchColor s colorId).stages.map (fun p => (p.1, p.2.designState)) =
      s.stages.map (fun p => (p.1, p.2.designState)) ∧
    (switchColor s colorId).canvasDesign = s.canvasDesign ∧
    (∀ imageUrl : String,
      (setBackgroundImage s (some imageUrl)).canvasDesign = s.canvasDesign ∧
      (setBackgroundImage s (some imageUrl)).productImage = some imageUrl) := by
  refine ⟨?_, ?_, fun imageUrl => ⟨rfl, rfl⟩⟩ <;>
  · rcases hidx : s.product.colors.findIdx? (fun c => c.id = colorId) with _ | idx
    · simp only [switchColor, hidx]
    · rcases hcol : s.product.colors[idx]? with _ | color
      · simp only [switchColor, hidx, hcol]
      · simp only [switchColor, hidx, hcol, setBackgroundImage_canvasDesign,
          setBackgroundImage_stages, refreshStageImagesForColor_designState]

/-- Witness for C4: a two-color product with one designed stage; the
switch to the second color keeps the stage's decoration list and the
canvas objects. -/
theorem switchColor_preserves_designs_witness :
    (switchColor
      { product := { colors := [⟨"red", [("front", "red.png")]⟩,
                                ⟨"blue", [("front", "blue.png")]⟩],
                     viewIds := ["front"] }
        currentColorIndex := 0
        currentViewIndex := 0
        stages := [("front", ⟨"Front", ⟨some "red.png"⟩, some [3]⟩)]
        canvasDesign := ([3] : List ℕ)
        productImage := some "red.png" } "blue").stages.map
      (fun p => (p.1, p.2.designState)) = [("front", some [3])] ∧
    (switchColor
      { product := { colors := [⟨"red", [("front", "red.png")]⟩,
                                ⟨"blue", [("front", "blue.png")]⟩],
                     viewIds := ["front"] }
        currentColorIndex := 0
        currentViewIndex := 0
        stages := [("front", ⟨"Front", ⟨some "red.png"⟩, some [3]⟩)]
        canvasDesign := ([3] : List ℕ)
        productImage := some "red.png" } "blue").canvasDesign = [3] := by
  have h := switchColor_preserves_designs
    { product := { colors := [⟨"red", [("front", "red.png")]⟩,
                              ⟨"blue", [("front", "blue.png")]⟩],
                   viewIds := ["front"] }
      currentColorIndex := 0
      currentViewIndex := 0
      stages := [("front", ⟨"Front", ⟨some "red.png"⟩, some [3]⟩)]
      canvasDesign := ([3] : List ℕ)
      productImage := some "red.png" } "blue" (by decide)
  exact ⟨h.1, h.2.1⟩

/-- Every operation keeps the history list within `maxHistory`. -/
theorem hmStep_length_le {α : Type} [DecidableEq α] (s : HM α) (op : HOp α)
    (h : s.history.length ≤ maxHistory) :
    (hmStep s op).history.length ≤ maxHistory := by
  cases op with
  | edit c => exact h
  | undo =>
      rw [hmStep, hmUndo]
      split <;> exact h
  | redo =>
      rw [hmStep, hmRedo]
      split <;> exact h
  | save =>
      rw [hmStep, hmSave]
      by_cases hres : s.isRestoring
      · rw [if_pos hres]; exact h
      · rw [if_neg hres]
        simp only
        set hist := if s.historyIndex < (s.history.length : ℤ) - 1 then
            s.history.take (s.historyIndex + 1).toNat
          else s.history with hhist
        have hhl : hist.length ≤ maxHistory := by
          rw [hhist]
          split
          · rw [List.length_take]
            omega
          · exact h
        split
        · exact hhl
        · split
          · simp only [List.length_drop, List.length_append, List.length_singleton]
            omega
          · simp only [List.length_append, List.length_singleton]
            rename_i hcap
            simp only [List.length_append, List.length_singleton, gt_iff_lt,
              not_lt] at hcap
            omega

/-- `undo` never changes the history list, and the restored canvas is
either unchanged or a member of the history. -/
theorem hmUndo_reach {α : Type} (s : HM α) :
    (hmUndo s).history = s.history ∧
    ((hmUndo s).canvas = s.canvas ∨ (hmUndo s).canvas ∈ s.history) := by
  rw [hmUndo]
  split
  · refine ⟨rfl, ?_⟩
    rcases hg : listGet s.history (s.historyIndex - 1) with _ | v
    · exact Or.inl (by simp [hg])
    · exact Or.inr (by simp only [hg, Option.getD_some]; exact listGet_mem hg)
  · exact ⟨rfl, Or.inl rfl⟩

/-- A state never stored in the history and absent from the canvas
cannot be produced by any number of `undo()` calls. -/
theorem hmUndo_iterate_avoid {α : Type} (x : α) :
    ∀ (k : ℕ) (s : HM α), x ∉ s.history → s.canvas ≠ x →
      (hmUndo^[k] s).canvas ≠ x := by
  intro k
  induction k with
  | zero => intro s hmem hc; simpa using hc
  | succ n ih =>
      intro s hmem hc
      rw [Function.iterate_succ_apply]
      obtain ⟨hh, hcanvas⟩ := hmUndo_reach s
      refine ih (hmUndo s) (hh ▸ hmem) ?_
      rcases hcanvas with heq | hmem2
      · rw [heq]; exact hc
      · intro hx
        exact hmem (hx ▸ hmem2)

set_option maxRecDepth 40000 in
/-- C7: after any sequence of edits, saves, undos and redos from a
state within capacity, the history never exceeds `maxHistory = 50`;
and after 51 distinct-state saves from a fresh manager, the first
snapshot has been dropped — it is no longer in the history, and no
sequence of `undo()` calls can ever restore it. -/
theorem history_bounded_and_oldest_unreachable :
    (∀ (s : HM ℕ) (ops : List (HOp ℕ)), s.history.length ≤ maxHistory →
      (hmRun s ops).history.length ≤ maxHistory) ∧
    (hmRun (hmInit 0) fiftyOneSaves).history.length = maxHistory ∧
    1 ∉ (hmRun (hmInit 0) fiftyOneSaves).history ∧
    ∀ k : ℕ, (hmUndo^[k] (hmRun (hmInit 0) fiftyOneSaves)).canvas ≠ 1 := by
  refine ⟨?_, by decide, by decide, ?_⟩
  · intro s ops
    induction ops generalizing s with
    | nil => intro h; exact h
    | cons op rest ih =>
        intro h
        rw [hmRun, List.foldl_cons]
        exact ih (hmStep s op) (hmStep_length_le s op h)
  · intro k
    exact hmUndo_iterate_avoid 1 k (hmRun (hmInit 0) fiftyOneSaves) (by decide)
      (by decide)

/-- Witness for C7: the capacity bound applied to a concrete run (a
fresh manager, one edit and one save). -/
theorem history_bounded_witness :
    (hmInit (0 : ℕ)).history.length ≤ maxHistory ∧
    (hmRun (hmInit (0 : ℕ)) [HOp.edit 1, HOp.save]).history.length ≤ maxHistory :=
  ⟨by decide, history_bounded_and_oldest_unreachable.1 (hmInit 0)
    [HOp.edit 1, HOp.save] (by decide)⟩

/-- C3 (evaluation of the code at the failing input): switching
A → B → A with one design object on A leaves the object on the canvas
during the visit to B (nothing removes the outgoing stage's design
objects — `loadProductView` clears only product elements), so the save
on leaving B writes A's object into B's session, and restoring A then
appends A's stored objects to the still-populated canvas: the live
decoration list ends as `[o, o]`, not the pre-switch `[o]`. -/
theorem switchStage_roundtrip_duplicates :
    (switchStage (switchStage
      { stages := [("A", ⟨"Front", ⟨none⟩, none⟩), ("B", ⟨"Back", ⟨none⟩, none⟩)],
        currentStage := some "A", canvasDesign := [7], canvasProduct := none }
      "B") "A").canvasDesign = [7, 7] ∧
    ((switchStage (switchStage
      { stages := [("A", ⟨"Front", ⟨none⟩, none⟩), ("B", ⟨"Back", ⟨none⟩, none⟩)],
        currentStage := some "A", canvasDesign := ([7] : List ℕ), canvasProduct := none }
      "B") "A").getStage "A").map (fun st => st.designState) = some (some [7]) ∧
    ((switchStage (switchStage
      { stages := [("A", ⟨"Front", ⟨none⟩, none⟩), ("B", ⟨"Back", ⟨none⟩, none⟩)],
        currentStage := some "A", canvasDesign := ([7] : List ℕ), canvasProduct := none }
      "B") "A").getStage "B").map (fun st => st.designState) = some (some [7]) := by
  refine ⟨rfl, rfl, rfl⟩

/-- C5: the view surcharge equals the sum of `extraPrice` over designed
`alwaysChargeExtra` views plus `pricing.additionalView` for every
designed regular view after the first; unknown ids contribute
nothing. -/
theorem calculateViewsPricing_spec (views : List View) (p : ℚ)
    (designedViews : List String) :
    (calculateViewsPricing views p designedViews).1 =
      alwaysExtraTotal views designedViews +
        p * (regularViewCount views designedViews - 1 : ℕ) ∧
    (calculateViewsPricing views p designedViews).2 =
      regularViewCount views designedViews - 1 := by
  rw [calculateViewsPricing]
  rw [viewsPricing_foldl]
  simp

end Designer
